import Mathlib

/-!
Verification of the blotter registry in `zipline/finance/blotter/core.py`.

The registry keeps a module-level dict `_blotters` mapping names (strings)
to blotter classes, exposed read-only through `mappingproxy`, together with
three closures `register`, `unregister` and `load` produced by
`_make_blotters_core`.  We embed the dict as an insertion-ordered
association list and each closure as a pure function threading the catalog
state explicitly.  The candidate-class type and the `issubclass(·, Blotter)`
check are parameters (`C`, `isSub`): the `Blotter` base class lives in a
different module and the spec treats the Entry Contract as an external
collaborator reduced to a single boolean predicate.
-/

namespace BlotterCore

/-- Errors raised by the registry in `core.py`: `ValueError` for a duplicate
name in `register`, `TypeError` when the candidate is not a subclass of
`Blotter`, `ValueError` in `unregister` for a name that was not registered,
and `ValueError` in `load` carrying the sorted list of registered names.
`immutableViolation` models the distinct failure of a mutation attempt on
the read-only `mappingproxy` view. -/
inductive RegError where
  | duplicateName (name : String)
  | notSubclassOfBlotter
  | notRegistered (name : String)
  | notFound (name : String) (options : List String)
  | immutableViolation
deriving DecidableEq

/-- The `_blotters` dict: an insertion-ordered association list from blotter
names to blotter classes.  `C` is the type of candidate classes. -/
abbrev Catalog (C : Type) := List (String × C)

/-- Key lookup in the catalog (`_blotters[name]` / `_blotters.get`). -/
def lookupName {C : Type} : Catalog C → String → Option C
  | [], _ => none
  | (k, v) :: rest, n => if k = n then some v else lookupName rest n

/-- Key membership test (`name in _blotters`). -/
def containsName {C : Type} (cat : Catalog C) (n : String) : Bool :=
  (lookupName cat n).isSome

/-- Dict assignment `_blotters[name] = blotter_class` for a fresh key:
a new key is appended at the end, as in a Python dict. -/
def insertEntry {C : Type} (cat : Catalog C) (name : String) (cls : C) :
    Catalog C :=
  cat ++ [(name, cls)]

/-- Dict deletion `del _blotters[name]`: removes the entry for `name`. -/
def eraseName {C : Type} : Catalog C → String → Catalog C
  | [], _ => []
  | (k, v) :: rest, n =>
      if k = n then eraseName rest n else (k, v) :: eraseName rest n

/-- The list of registered names (`list(_blotters)`, i.e. the dict keys). -/
def keys {C : Type} (cat : Catalog C) : List String :=
  cat.map Prod.fst

/-- The payload `sorted(_blotters)` of the `load` error message. -/
def sortedNames {C : Type} (cat : Catalog C) : List String :=
  List.insertionSort (· ≤ ·) (keys cat)

/-- Possible outcomes of a call to `register`: the partially-applied
decorator `partial(register, name)` (when `blotter_class` is `None`),
the registered class returned unchanged, or a raised error. -/
inductive RegisterResult (C : Type) where
  | decorator (name : String)
  | success (cls : C)
  | error (e : RegError)
deriving DecidableEq

/-- The `register` closure of `_make_blotters_core`.  `isSub` is the
`issubclass(·, Blotter)` test.  Mirrors the source order: the `None`
(decorator) early return, then the duplicate-name check, then the
subclass check, then the insertion, returning the class unchanged. -/
def register {C : Type} (isSub : C → Bool) (cat : Catalog C) (name : String)
    (blotter_class : Option C) : RegisterResult C × Catalog C :=
  match blotter_class with
  | none => (RegisterResult.decorator name, cat)
  | some cls =>
    if containsName cat name then
      (RegisterResult.error (RegError.duplicateName name), cat)
    else if !(isSub cls) then
      (RegisterResult.error RegError.notSubclassOfBlotter, cat)
    else
      (RegisterResult.success cls, insertEntry cat name cls)

/-- Invoking the decorator `partial(register, name)` returned by
`register(name)`: it calls the same `register` closure with the captured
name and the supplied class, against the catalog current at call time. -/
def callDecorator {C : Type} (isSub : C → Bool) (name : String)
    (cat : Catalog C) (cls : C) : RegisterResult C × Catalog C :=
  register isSub cat name (some cls)

/-- The `unregister` closure: `del _blotters[name]`, converting the
`KeyError` for an absent key into a `ValueError`. -/
def unregister {C : Type} (cat : Catalog C) (name : String) :
    Except RegError (Catalog C) :=
  if containsName cat name then Except.ok (eraseName cat name)
  else Except.error (RegError.notRegistered name)

/-- The `load` closure: `_blotters[name]`, converting the `KeyError` for an
absent key into a `ValueError` whose message carries `sorted(_blotters)`. -/
def load {C : Type} (cat : Catalog C) (name : String) : Except RegError C :=
  match lookupName cat name with
  | some cls => Except.ok cls
  | none => Except.error (RegError.notFound name (sortedNames cat))

/-- A mutation attempt on the read-only view: item insertion, deletion or
overwrite. -/
inductive ViewMutation (C : Type) where
  | insertItem (key : String) (val : C)
  | deleteItem (key : String)
  | updateItem (key : String) (val : C)

/-- Reading through the view `blotters = mappingproxy(_blotters)`: a live
projection that forwards lookups to the underlying catalog. -/
def viewGet {C : Type} (cat : Catalog C) (key : String) : Option C :=
  lookupName cat key

/-- Modelled from the spec: the view is `mappingproxy(_blotters)`, where
`mappingproxy` comes from `zipline.utils.compat`, a module not present in
the sources.  Per the spec it is a read-only projection whose mutation
attempts (insert/delete/update) always fail with an Immutable-Violation
condition, distinct from the registry's other errors, and never change the
underlying catalog. -/
def viewMutate {C : Type} (cat : Catalog C) (_m : ViewMutation C) :
    Except RegError Unit × Catalog C :=
  (Except.error RegError.immutableViolation, cat)

/-! Basic lemmas about catalog lookup, insertion and erasure. -/

theorem containsName_eq_false_iff {C : Type} (cat : Catalog C) (n : String) :
    containsName cat n = false ↔ lookupName cat n = none := by
  cases h : lookupName cat n <;> simp [containsName, h]

theorem containsName_eq_true_of_lookup {C : Type} {cat : Catalog C}
    {n : String} {v : C} (h : lookupName cat n = some v) :
    containsName cat n = true := by
  simp [containsName, h]

theorem lookupName_append_none {C : Type} {c1 : Catalog C} {m : String}
    (c2 : Catalog C) (h : lookupName c1 m = none) :
    lookupName (c1 ++ c2) m = lookupName c2 m := by
  induction c1 with
  | nil => rfl
  | cons p rest ih =>
      obtain ⟨k, v⟩ := p
      by_cases hk : k = m
      · simp [lookupName, hk] at h
      · simp only [lookupName, if_neg hk] at h ⊢
        exact ih h

theorem lookupName_append_some {C : Type} {c1 : Catalog C} {m : String}
    {v : C} (c2 : Catalog C) (h : lookupName c1 m = some v) :
    lookupName (c1 ++ c2) m = some v := by
  induction c1 with
  | nil => simp [lookupName] at h
  | cons p rest ih =>
      obtain ⟨k, w⟩ := p
      by_cases hk : k = m
      · simp only [lookupName, if_pos hk] at h ⊢
        exact h
      · simp only [lookupName, if_neg hk] at h ⊢
        exact ih h

theorem lookupName_insertEntry_self {C : Type} {cat : Catalog C}
    {n : String} (cls : C) (h : lookupName cat n = none) :
    lookupName (insertEntry cat n cls) n = some cls := by
  rw [insertEntry, lookupName_append_none _ h]
  simp [lookupName]

theorem lookupName_insertEntry_cases {C : Type} {cat : Catalog C}
    {n m : String} {cls v : C}
    (h : lookupName (insertEntry cat n cls) m = some v) :
    lookupName cat m = some v ∨ (n = m ∧ v = cls) := by
  cases hc : lookupName cat m with
  | some w =>
      left
      rw [insertEntry, lookupName_append_some _ hc] at h
      exact h
  | none =>
      right
      rw [insertEntry, lookupName_append_none _ hc] at h
      by_cases hn : n = m
      · simp [lookupName, hn] at h
        exact ⟨hn, h.symm⟩
      · simp [lookupName, hn] at h

theorem lookupName_eraseName_self {C : Type} (cat : Catalog C) (n : String) :
    lookupName (eraseName cat n) n = none := by
  induction cat with
  | nil => rfl
  | cons p rest ih =>
      obtain ⟨k, v⟩ := p
      by_cases hk : k = n
      · simpa [eraseName, hk] using ih
      · simpa [eraseName, lookupName, hk] using ih

theorem lookupName_eraseName_ne {C : Type} (cat : Catalog C)
    {n m : String} (hne : m ≠ n) :
    lookupName (eraseName cat n) m = lookupName cat m := by
  induction cat with
  | nil => rfl
  | cons p rest ih =>
      obtain ⟨k, v⟩ := p
      by_cases hk : k = n
      · have hkm : ¬ k = m := fun h => hne (h.symm.trans hk)
        simp only [eraseName, if_pos hk, lookupName, if_neg hkm]
        exact ih
      · simp only [eraseName, if_neg hk, lookupName]
        by_cases hkm : k = m
        · simp only [if_pos hkm]
        · simp only [if_neg hkm]
          exact ih

/-! Claim theorems. -/

/-- C1: Round-trip.  For every name `n` and implementation `A` accepted by a
successful `register(n, A)`, a subsequent `load(n)` returns exactly the
registered object `A`, and `register` itself returns `A` unchanged. -/
theorem register_load_roundtrip {C : Type} (isSub : C → Bool)
    (cat : Catalog C) (n : String) (A : C)
    (hfresh : containsName cat n = false) (hsub : isSub A = true) :
    register isSub cat n (some A) =
      (RegisterResult.success A, insertEntry cat n A) ∧
    load (register isSub cat n (some A)).2 n = Except.ok A := by
  have hnone := (containsName_eq_false_iff cat n).1 hfresh
  have hreg : register isSub cat n (some A) =
      (RegisterResult.success A, insertEntry cat n A) := by
    simp [register, hfresh, hsub]
  refine ⟨hreg, ?_⟩
  rw [hreg]
  simp [load, lookupName_insertEntry_self A hnone]

/-- Witness for C1 at a concrete instance. -/
theorem register_load_roundtrip_witness :
    register (fun c : Nat => c % 2 == 0) [] "deflt" (some 2) =
      (RegisterResult.success 2, insertEntry ([] : Catalog Nat) "deflt" 2) ∧
    load (register (fun c : Nat => c % 2 == 0) [] "deflt" (some 2)).2 "deflt" =
      Except.ok 2 :=
  register_load_roundtrip (fun c : Nat => c % 2 == 0) [] "deflt" 2
    (by decide) (by decide)

/-- C2: Uniqueness.  After the catalog maps `n` to `A`, a subsequent
`register(n, B)` fails with the Duplicate-Name error for every `B`, the
catalog is unchanged by the failed call, and `n` still loads `A`. -/
theorem register_duplicate_rejected {C : Type} (isSub : C → Bool)
    (cat : Catalog C) (n : String) (A : C)
    (h : lookupName cat n = some A) (B : C) :
    register isSub cat n (some B) =
      (RegisterResult.error (RegError.duplicateName n), cat) ∧
    load cat n = Except.ok A := by
  have hc := containsName_eq_true_of_lookup h
  constructor
  · simp [register, hc]
  · simp [load, h]

/-- Witness for C2 at a concrete instance. -/
theorem register_duplicate_rejected_witness :
    register (fun _ : Nat => true) [("a", 1)] "a" (some 7) =
      (RegisterResult.error (RegError.duplicateName "a"), [("a", 1)]) ∧
    load ([("a", (1 : Nat))] : Catalog Nat) "a" = Except.ok 1 :=
  register_duplicate_rejected (fun _ => true) [("a", 1)] "a" 1 (by decide) 7

/-- C3: Contract enforcement.  For a name not yet registered and a candidate
`X` failing the `issubclass(X, Blotter)` check, `register(n, X)` fails with
the Contract-Violation (`TypeError`) error and leaves the catalog unchanged;
moreover every successful registration stored a candidate that passes the
check, so only contract-satisfying candidates are ever inserted. -/
theorem register_contract_violation {C : Type} (isSub : C → Bool)
    (cat : Catalog C) (n : String) (X : C)
    (hfresh : containsName cat n = false) (hbad : isSub X = false) :
    register isSub cat n (some X) =
      (RegisterResult.error RegError.notSubclassOfBlotter, cat) ∧
    ∀ (d : Catalog C) (m : String) (c : C) (r : C) (d' : Catalog C),
      register isSub d m (some c) = (RegisterResult.success r, d') →
      isSub c = true := by
  constructor
  · simp [register, hfresh, hbad]
  · intro d m c r d' hreg
    by_cases hd : containsName d m
    · simp [register, hd] at hreg
    · by_cases hs : isSub c
      · exact hs
      · simp [register, hd, hs] at hreg

/-- Witness for C3 at a concrete instance. -/
theorem register_contract_violation_witness :
    register (fun c : Nat => c % 2 == 0) [] "bad" (some 3) =
      (RegisterResult.error RegError.notSubclassOfBlotter,
        ([] : Catalog Nat)) :=
  (register_contract_violation (fun c : Nat => c % 2 == 0) [] "bad" 3
    (by decide) (by decide)).1

/-- C4: Not-Found on load.  For every name absent from the catalog, `load`
fails with the Not-Found error whose payload is the sorted list of all
currently registered names (sorted, and a permutation of the keys); `load`
is a pure function of the catalog, so it never mutates it. -/
theorem load_not_found {C : Type} (cat : Catalog C) (n : String)
    (h : lookupName cat n = none) :
    load cat n = Except.error (RegError.notFound n (sortedNames cat)) ∧
    List.Sorted (· ≤ ·) (sortedNames cat) ∧
    (sortedNames cat).Perm (keys cat) := by
  refine ⟨?_, ?_, ?_⟩
  · simp [load, h]
  · exact List.sorted_insertionSort _ _
  · exact List.perm_insertionSort _ _

/-- Witness for C4 on the empty catalog. -/
theorem load_not_found_witness :
    load ([] : Catalog Nat) "missing" =
      Except.error
        (RegError.notFound "missing" (sortedNames ([] : Catalog Nat))) ∧
    List.Sorted (· ≤ ·) (sortedNames ([] : Catalog Nat)) ∧
    (sortedNames ([] : Catalog Nat)).Perm (keys ([] : Catalog Nat)) :=
  load_not_found [] "missing" rfl

/-- C5: Unregister semantics.  If `n` is present, `unregister(n)` removes
exactly the entry for `n`: a subsequent `load(n)` fails with Not-Found while
every other entry is untouched.  If `n` is absent, `unregister(n)` fails
with the Not-Found (`ValueError`) error and, returning no new catalog,
leaves the catalog unchanged. -/
theorem unregister_semantics {C : Type} (cat : Catalog C) (n : String) :
    (∀ A : C, lookupName cat n = some A →
      unregister cat n = Except.ok (eraseName cat n) ∧
      load (eraseName cat n) n =
        Except.error
          (RegError.notFound n (sortedNames (eraseName cat n))) ∧
      ∀ m : String, m ≠ n →
        lookupName (eraseName cat n) m = lookupName cat m) ∧
    (lookupName cat n = none →
      unregister cat n = Except.error (RegError.notRegistered n)) := by
  constructor
  · intro A h
    have hc := containsName_eq_true_of_lookup h
    refine ⟨by simp [unregister, hc], ?_, ?_⟩
    · simp [load, lookupName_eraseName_self cat n]
    · intro m hm
      exact lookupName_eraseName_ne cat hm
  · intro h
    have hc : containsName cat n = false := by
      simp [containsName, h]
    simp [unregister, hc]

/-- Witness for C5: both the present and the absent case at concrete
inputs. -/
theorem unregister_semantics_witness :
    (unregister [("a", (1 : Nat)), ("b", 2)] "a" =
      Except.ok (eraseName [("a", (1 : Nat)), ("b", 2)] "a") ∧
     lookupName (eraseName [("a", (1 : Nat)), ("b", 2)] "a") "b" =
      lookupName [("a", (1 : Nat)), ("b", 2)] "b") ∧
    unregister ([] : Catalog Nat) "b" =
      Except.error (RegError.notRegistered "b") :=
  ⟨⟨((unregister_semantics [("a", 1), ("b", 2)] "a").1 1 (by decide)).1,
    ((unregister_semantics [("a", 1), ("b", 2)] "a").1 1 (by decide)).2.2
      "b" (by decide)⟩,
   (unregister_semantics [] "b").2 rfl⟩

/-- C6: Decorator form.  Calling `register(n)` with no implementation
argument performs no mutation and returns the callable
`partial(register, n)`; invoking that callable with any `A` against any
current catalog is the very same call as `register(n, A)` (same effect,
same errors, same return value). -/
theorem register_decorator_form {C : Type} (isSub : C → Bool)
    (cat : Catalog C) (n : String) :
    register isSub cat n none = (RegisterResult.decorator n, cat) ∧
    ∀ (cat' : Catalog C) (A : C),
      callDecorator isSub n cat' A = register isSub cat' n (some A) :=
  ⟨rfl, fun _ _ => rfl⟩

/-- C7: View immutability.  Every mutation attempt through the read-only
view fails with the Immutable-Violation error, never silently succeeds,
leaves the underlying catalog unchanged — so every name registered before
the attempt still loads afterwards — and that error is distinct from each
of the registry's other errors. -/
theorem view_immutable {C : Type} (cat : Catalog C) (m : ViewMutation C) :
    viewMutate cat m = (Except.error RegError.immutableViolation, cat) ∧
    (∀ (n : String) (A : C), lookupName cat n = some A →
      load (viewMutate cat m).2 n = Except.ok A) ∧
    (∀ s, RegError.immutableViolation ≠ RegError.duplicateName s) ∧
    RegError.immutableViolation ≠ RegError.notSubclassOfBlotter ∧
    (∀ s, RegError.immutableViolation ≠ RegError.notRegistered s) ∧
    (∀ s opts, RegError.immutableViolation ≠ RegError.notFound s opts) := by
  refine ⟨rfl, ?_, ?_, ?_, ?_, ?_⟩
  · intro n A h
    simp [viewMutate, load, h]
  · intro s hs
    cases hs
  · intro hs
    cases hs
  · intro s hs
    cases hs
  · intro s opts hs
    cases hs

/-- Witness for C7 at a concrete instance. -/
theorem view_immutable_witness :
    viewMutate [("a", (1 : Nat))] (ViewMutation.deleteItem "a") =
      (Except.error RegError.immutableViolation, [("a", 1)]) ∧
    load (viewMutate [("a", (1 : Nat))] (ViewMutation.deleteItem "a")).2
      "a" = Except.ok 1 :=
  ⟨(view_immutable [("a", 1)] (ViewMutation.deleteItem "a")).1,
   (view_immutable [("a", 1)] (ViewMutation.deleteItem "a")).2.1 "a" 1
     (by decide)⟩

/-- C9: Validation order.  `register` checks the duplicate-name condition
before the subclass check: for a name already in the catalog,
`register(n, X)` raises Duplicate-Name for every non-`None` candidate `X`,
even one failing the contract; and conversely a Contract-Violation error is
only ever raised for a name not yet registered. -/
theorem register_duplicate_checked_first {C : Type} (isSub : C → Bool)
    (cat : Catalog C) (n : String) (h : containsName cat n = true) :
    (∀ X : C, register isSub cat n (some X) =
      (RegisterResult.error (RegError.duplicateName n), cat)) ∧
    ∀ (d : Catalog C) (m : String) (X : C),
      (register isSub d m (some X)).1 =
        RegisterResult.error RegError.notSubclassOfBlotter →
      containsName d m = false := by
  constructor
  · intro X
    simp [register, h]
  · intro d m X hreg
    by_cases hd : containsName d m
    · simp [register, hd] at hreg
    · simpa using hd

/-- Witness for C9: a candidate failing the contract still gets the
Duplicate-Name error when the name is taken. -/
theorem register_duplicate_checked_first_witness :
    register (fun _ : Nat => false) [("a", 1)] "a" (some 9) =
      (RegisterResult.error (RegError.duplicateName "a"), [("a", 1)]) :=
  (register_duplicate_checked_first (fun _ : Nat => false) [("a", 1)] "a"
    (by decide)).1 9

/-- C10: Explicit `None` implementation.  The two-argument call
`register(n, None)` behaves exactly like the decorator form even when `n`
is already registered: no error is raised, no entry changes, and the
partially-applied callable is returned; consequently `None` is never stored
(every entry of the resulting catalog is an entry it already had). -/
theorem register_none_is_decorator {C : Type} (isSub : C → Bool)
    (cat : Catalog C) (n : String) (h : containsName cat n = true) :
    register isSub cat n none = (RegisterResult.decorator n, cat) ∧
    ∀ m : String,
      lookupName (register isSub cat n none).2 m = lookupName cat m :=
  ⟨rfl, fun _ => rfl⟩

/-- Witness for C10: `n` already registered, yet `register(n, None)`
raises nothing and mutates nothing. -/
theorem register_none_is_decorator_witness :
    register (fun _ : Nat => true) [("a", 1)] "a" none =
      (RegisterResult.decorator "a", [("a", 1)]) ∧
    lookupName
      (register (fun _ : Nat => true) [("a", 1)] "a" none).2 "a" =
      lookupName [("a", (1 : Nat))] "a" :=
  ⟨(register_none_is_decorator (fun _ : Nat => true) [("a", 1)] "a"
      (by decide)).1,
   (register_none_is_decorator (fun _ : Nat => true) [("a", 1)] "a"
      (by decide)).2 "a"⟩

end BlotterCore
